import Mathlib

/-!
Verification of the emoji shortcode resolver and the `EmojiSelect` picker
(search buffer, selection model, filter engine and grid navigation) of the
`shawalli/actual` repository.

The resolver definitions follow `loot-core/src/shared/emoji.ts`
(`buildEmojiCache`, `shortcodeToNative`, `nativeToShortcode`,
`normalizeFlagToShortcode`, `validateNormalizeShortcode`); the picker state
machine follows `desktop-client/src/components/select/EmojiSelect.tsx`.
Strings are modelled at Unicode-codepoint granularity (`List Char`),
matching the component's own `Array.from` handling.
-/

namespace EmojiSpec

/-! ## Resolver (`loot-core/src/shared/emoji.ts`) -/

/-- One record of the `@emoji-mart/data` catalog as consumed by
`buildEmojiCache`: an id plus a list of skins, each with an optional
`native` glyph. -/
structure EmojiMartEmoji where
  id : String
  name : String
  skins : List (Option String)
  keywords : List String
deriving DecidableEq

/-- JS `Map.set`: overwrite the value of an existing key, otherwise append. -/
def mapSet (m : List (String × String)) (k v : String) : List (String × String) :=
  if m.any (fun p => p.1 == k) then
    m.map (fun p => if p.1 == k then (k, v) else p)
  else
    m ++ [(k, v)]

/-- JS `Map.get` on the association-list model. -/
def mapGet (m : List (String × String)) (k : String) : Option String :=
  m.lookup k

/-- Model of `buildEmojiCache` (emoji.ts): for each catalog entry with a truthy first-skin
`native`, store both directions in the same map: `id -> native` and
`native -> id`. -/
def buildEmojiCache (emojis : List EmojiMartEmoji) : List (String × String) :=
  emojis.foldl
    (fun m e =>
      match e.skins.head? with
      | some (some native) =>
          if native ≠ "" then mapSet (mapSet m e.id native) native e.id else m
      | _ => m)
    []

/-- The regex `/^:+|:+$/g`: strip any run of leading and any run of trailing
colons. -/
def stripColonRuns (l : List Char) : List Char :=
  ((l.dropWhile (fun c => c == ':')).reverse.dropWhile (fun c => c == ':')).reverse

/-- String form of `stripColonRuns`. -/
def stripColonRunsS (s : String) : String :=
  String.mk (stripColonRuns s.data)

/-- Model of `replace(/^:/, '')`: drop a single leading colon if present. -/
def dropLeadColon : List Char → List Char
  | ':' :: rest => rest
  | l => l

/-- Model of `s.replace(/^:/, '').replace(/:$/, '')`: drop one leading colon, then one
trailing colon. -/
def stripOneS (s : String) : String :=
  String.mk ((dropLeadColon ((dropLeadColon s.data).reverse)).reverse)

/-- Model of `shortcodeToNative` (emoji.ts): null/empty input gives `""`; strip colon
runs; empty stripped id returns the input; otherwise look up the id in the
cache, falling back to the input on miss (or falsy hit). -/
def shortcodeToNative (cache : List (String × String)) (shortcode : Option String) : String :=
  match shortcode with
  | none => ""
  | some s =>
    if s = "" then ""
    else if stripColonRunsS s = "" then s
    else
      match mapGet cache (stripColonRunsS s) with
      | some native => if native = "" then s else native
      | none => s

/-- Model of `nativeToShortcode` (emoji.ts): null/empty gives `""`; if the input
contains a colon or has no codepoint above ASCII, treat it as a shortcode and
rewrap the single-stripped id; otherwise look the glyph up, wrapping the hit
as `:id:` and falling back to the input on miss. -/
def nativeToShortcode (cache : List (String × String)) (emoji : Option String) : String :=
  match emoji with
  | none => ""
  | some s =>
    if s = "" then ""
    else if s.data.contains ':' || !(s.data.any (fun c => c.toNat > 127)) then
      ":" ++ stripOneS s ++ ":"
    else
      match mapGet cache s with
      | some sc => if sc = "" then s else ":" ++ sc ++ ":"
      | none => s

/-- The regex `^[a-zA-Z0-9_-]+$`. -/
def isShortcodeChars (l : List Char) : Bool :=
  !l.isEmpty && l.all (fun c => c.isAlphanum || c == '_' || c == '-')

/-- Model of `normalizeFlagToShortcode` (emoji.ts): falsy input gives null; input with a
colon is colon-run-stripped and rewrapped (empty id gives null); plain
`[A-Za-z0-9_-]+` input is wrapped without existence checking; otherwise a
glyph lookup with fallback to the input. -/
def normalizeFlagToShortcode (cache : List (String × String)) (flag : Option String) :
    Option String :=
  match flag with
  | none => none
  | some s =>
    if s = "" then none
    else if s.data.contains ':' then
      if stripColonRunsS s = "" then none
      else some (":" ++ stripColonRunsS s ++ ":")
    else if isShortcodeChars s.data then
      some (":" ++ s ++ ":")
    else
      match mapGet cache s with
      | some sc => if sc = "" then some s else some (":" ++ sc ++ ":")
      | none => some s

/-- Model of `validateNormalizeShortcode` (emoji.ts): falsy input gives null; strip
colon runs; empty id gives null; otherwise return `:id:` exactly when the id
is a key of the cache, else null. -/
def validateNormalizeShortcode (cache : List (String × String)) (shortcode : Option String) :
    Option String :=
  match shortcode with
  | none => none
  | some s =>
    if s = "" then none
    else if stripColonRunsS s = "" then none
    else if (mapGet cache (stripColonRunsS s)).isSome then
      some (":" ++ stripColonRunsS s ++ ":")
    else none

/-- The four-entry catalog used by the repository's own test suites
(`emoji.test.ts`, `EmojiSelect.test.tsx`), in JS `Object.values` enumeration
order (the integer-like key `"100"` enumerates first). -/
def emojiTestMart : List EmojiMartEmoji :=
  [ ⟨"100", "Hundred Points", [some "💯"], ["100", "hundred", "points", "score"]⟩,
    ⟨"grinning", "Grinning Face", [some "😀"], ["face", "grin", "smile", "happy"]⟩,
    ⟨"large_blue_circle", "Blue Circle", [some "🔵"], ["blue", "circle"]⟩,
    ⟨"thumbs_up", "Thumbs Up", [some "👍"], ["thumbs", "up", "like", "yes"]⟩ ]

/-- The bidirectional cache built from the test catalog. -/
def emojiTestCache : List (String × String) :=
  buildEmojiCache emojiTestMart

/-! ### Colon-stripping lemmas -/

theorem dropWhile_eq_nil_of_forall {p : Char → Bool} {l : List Char}
    (h : ∀ c ∈ l, p c = true) : l.dropWhile p = [] := by
  induction l with
  | nil => rfl
  | cons a t ih =>
      simp only [List.dropWhile_cons, h a (List.mem_cons_self a t), if_true]
      exact ih fun c hc => h c (List.mem_cons_of_mem a hc)

theorem dropWhile_eq_self_of_forall {p : Char → Bool} {l : List Char}
    (h : ∀ c ∈ l, p c = false) : l.dropWhile p = l := by
  cases l with
  | nil => rfl
  | cons a t => simp [List.dropWhile_cons, h a (List.mem_cons_self a t)]

theorem dropWhile_append_of_forall {p : Char → Bool} {pre m : List Char}
    (h : ∀ c ∈ pre, p c = true) : (pre ++ m).dropWhile p = m.dropWhile p := by
  induction pre with
  | nil => rfl
  | cons a t ih =>
      simp only [List.cons_append, List.dropWhile_cons, h a (List.mem_cons_self a t), if_true]
      exact ih fun c hc => h c (List.mem_cons_of_mem a hc)

/-- Stripping colon runs from a non-colon core wrapped in (possibly empty)
runs of colons recovers exactly the core. -/
theorem stripColonRuns_sandwich {pre post l : List Char}
    (hpre : ∀ x ∈ pre, x = ':') (hpost : ∀ x ∈ post, x = ':')
    (hl : ∀ x ∈ l, x ≠ ':') (hne : l ≠ []) :
    stripColonRuns (pre ++ l ++ post) = l := by
  have hpre' : ∀ x ∈ pre, (x == ':') = true := fun x hx => by
    simp [hpre x hx]
  have hpost' : ∀ x ∈ post.reverse, (x == ':') = true := fun x hx => by
    simp [hpost x (List.mem_reverse.mp hx)]
  have hl' : ∀ x ∈ l, (x == ':') = false := fun x hx => by
    simpa using hl x hx
  obtain ⟨c, t, rfl⟩ := List.exists_cons_of_ne_nil hne
  unfold stripColonRuns
  rw [List.append_assoc, dropWhile_append_of_forall hpre', List.cons_append,
    List.dropWhile_cons, if_neg (by simp [hl' c (List.mem_cons_self c t)])]
  rw [show (c :: (t ++ post)).reverse = post.reverse ++ (t.reverse ++ [c]) by
    simp]
  rw [dropWhile_append_of_forall hpost',
    dropWhile_eq_self_of_forall (fun x hx => ?_), List.reverse_append]
  · simp
  · rcases List.mem_append.mp hx with hx | hx
    · exact hl' x (List.mem_cons_of_mem c (List.mem_reverse.mp hx))
    · simp only [List.mem_singleton] at hx
      subst hx
      exact hl' x (List.mem_cons_self x t)

/-- Strip-run behaviour on an all-colon string: everything is removed. -/
theorem stripColonRuns_all_colons {l : List Char} (h : ∀ x ∈ l, x = ':') :
    stripColonRuns l = [] := by
  unfold stripColonRuns
  rw [dropWhile_eq_nil_of_forall (l := l) (fun c hc => by simp [h c hc])]
  rfl

/-- A string equals the empty string iff its codepoint list is empty. -/
theorem string_eq_empty_iff (s : String) : s = "" ↔ s.data = [] := by
  constructor
  · intro h; rw [h]
  · intro h; exact String.ext h

/-- Model of `shortcodeToNative` on a cache hit with a nonempty stripped id. -/
theorem shortcodeToNative_of_hit (cache : List (String × String)) (s : String)
    (hs : s ≠ "") (hid : stripColonRunsS s ≠ "") (glyph : String)
    (hget : mapGet cache (stripColonRunsS s) = some glyph) (hg : glyph ≠ "") :
    shortcodeToNative cache (some s) = glyph := by
  simp only [shortcodeToNative, if_neg hs, if_neg hid, hget, if_neg hg]

/-- Stripping colon runs from a colon-free list is the identity. -/
theorem stripColonRuns_no_colons {l : List Char} (hl : ∀ x ∈ l, x ≠ ':') :
    stripColonRuns l = l := by
  unfold stripColonRuns
  rw [dropWhile_eq_self_of_forall (l := l) (fun c hc => by simpa using hl c hc),
    dropWhile_eq_self_of_forall (l := l.reverse)
      (fun c hc => by simpa using hl c (List.mem_reverse.mp hc)),
    List.reverse_reverse]

/-! ## Claim theorems about the resolver -/

/-- C3: for a valid catalog id (nonempty, colon-free, whose cache lookup hits
a truthy glyph), resolving the doubled-colon form `::id::` agrees with the
single-colon form `:id:`, and both give the glyph, because the regex
`/^:+|:+$/g` strips any run of leading and trailing colons. -/
theorem resolveToGlyph_doubled_colons (cache : List (String × String))
    (id glyph : String)
    (hne : id.data ≠ []) (hcolon : ∀ c ∈ id.data, c ≠ ':')
    (hget : mapGet cache id = some glyph) (hglyph : glyph ≠ "") :
    shortcodeToNative cache (some ("::" ++ id ++ "::")) =
      shortcodeToNative cache (some (":" ++ id ++ ":")) ∧
    shortcodeToNative cache (some (":" ++ id ++ ":")) = glyph := by
  have hmk : String.mk id.data = id := by cases id; rfl
  have hdata2 : ("::" ++ id ++ "::").data = [':', ':'] ++ id.data ++ [':', ':'] := by
    rw [String.data_append, String.data_append]
  have hdata1 : (":" ++ id ++ ":").data = [':'] ++ id.data ++ [':'] := by
    rw [String.data_append, String.data_append]
  have hstrip2 : stripColonRunsS ("::" ++ id ++ "::") = id := by
    unfold stripColonRunsS
    rw [hdata2, stripColonRuns_sandwich (by decide) (by decide) hcolon hne, hmk]
  have hstrip1 : stripColonRunsS (":" ++ id ++ ":") = id := by
    unfold stripColonRunsS
    rw [hdata1, stripColonRuns_sandwich (by decide) (by decide) hcolon hne, hmk]
  have hidne : id ≠ "" := fun h => hne ((string_eq_empty_iff id).mp h)
  have hne2 : ("::" ++ id ++ "::") ≠ "" := fun h => by
    have := (string_eq_empty_iff _).mp h
    rw [hdata2] at this
    simp at this
  have hne1 : (":" ++ id ++ ":") ≠ "" := fun h => by
    have := (string_eq_empty_iff _).mp h
    rw [hdata1] at this
    simp at this
  have e2 : shortcodeToNative cache (some ("::" ++ id ++ "::")) = glyph :=
    shortcodeToNative_of_hit cache _ hne2 (by rw [hstrip2]; exact hidne) glyph
      (by rw [hstrip2]; exact hget) hglyph
  have e1 : shortcodeToNative cache (some (":" ++ id ++ ":")) = glyph :=
    shortcodeToNative_of_hit cache _ hne1 (by rw [hstrip1]; exact hidne) glyph
      (by rw [hstrip1]; exact hget) hglyph
  exact ⟨e2.trans e1.symm, e1⟩

/-- Witness for C3 at the test catalog: `::thumbs_up::` and `:thumbs_up:`
both resolve to the thumbs-up glyph. -/
theorem resolveToGlyph_doubled_colons_witness :
    shortcodeToNative emojiTestCache (some "::thumbs_up::") =
      shortcodeToNative emojiTestCache (some ":thumbs_up:") ∧
    shortcodeToNative emojiTestCache (some ":thumbs_up:") = "👍" := by
  have h := resolveToGlyph_doubled_colons emojiTestCache "thumbs_up" "👍"
    (by decide) (by decide) (by decide) (by decide)
  have e1 : ("::" ++ "thumbs_up" ++ "::" : String) = "::thumbs_up::" := by decide
  have e2 : (":" ++ "thumbs_up" ++ ":" : String) = ":thumbs_up:" := by decide
  rw [e1, e2] at h
  exact h

/-- C4 counterexample: on the colon-only input `"::"`, `shortcodeToNative`
and `nativeToShortcode` both return `"::"` — colon-only text, not the empty
string and not null — refuting the claim that every malformed (empty,
colon-only, null) input normalizes to empty/null for every resolver
operation. -/
theorem colon_only_input_cex :
    shortcodeToNative emojiTestCache (some "::") = "::" ∧
    nativeToShortcode emojiTestCache (some "::") = "::" ∧
    ("::" : String) ≠ "" ∧
    (∀ c ∈ ("::" : String).data, c = ':') := by
  refine ⟨by decide, by decide, by decide, by decide⟩

/-- C4 (amended): null and empty inputs give `""`/null for all three resolver
operations, and a colon-only input gives null from `normalizeFlagToShortcode`;
but `shortcodeToNative` returns a colon-only input unchanged, and
`nativeToShortcode` rewraps its single-stripped id, yielding colon-only
text. -/
theorem malformed_input_handling (cache : List (String × String)) (s : String)
    (h1 : s ≠ "") (h2 : ∀ c ∈ s.data, c = ':') :
    shortcodeToNative cache none = "" ∧
    shortcodeToNative cache (some "") = "" ∧
    nativeToShortcode cache none = "" ∧
    nativeToShortcode cache (some "") = "" ∧
    normalizeFlagToShortcode cache none = none ∧
    normalizeFlagToShortcode cache (some "") = none ∧
    shortcodeToNative cache (some s) = s ∧
    normalizeFlagToShortcode cache (some s) = none ∧
    nativeToShortcode cache (some s) = ":" ++ stripOneS s ++ ":" := by
  have hdne : s.data ≠ [] := fun hd => h1 (String.ext hd)
  have hstrip : stripColonRunsS s = "" := by
    unfold stripColonRunsS
    rw [stripColonRuns_all_colons h2]
  have hmem : ':' ∈ s.data := by
    obtain ⟨c, t, hct⟩ := List.exists_cons_of_ne_nil hdne
    have hc : c = ':' := h2 c (hct ▸ List.mem_cons_self c t)
    rw [hct, ← hc]
    exact List.mem_cons_self c t
  refine ⟨rfl, rfl, rfl, rfl, rfl, rfl, ?_, ?_, ?_⟩
  · simp [shortcodeToNative, h1, hstrip]
  · simp [normalizeFlagToShortcode, h1, hmem, hstrip]
  · simp [nativeToShortcode, h1, hmem]

/-- Witness for C4 (amended) at the colon-only input `"::"`. -/
theorem malformed_input_handling_witness :
    shortcodeToNative emojiTestCache (some "::") = "::" ∧
    normalizeFlagToShortcode emojiTestCache (some "::") = none ∧
    nativeToShortcode emojiTestCache (some "::") = ":" ++ stripOneS "::" ++ ":" := by
  have h := malformed_input_handling emojiTestCache "::" (by decide) (by decide)
  exact ⟨h.2.2.2.2.2.2.1, h.2.2.2.2.2.2.2.1, h.2.2.2.2.2.2.2.2⟩

/-- C5: `validateNormalizeShortcode` returns null exactly when the
colon-stripped id is empty or is not an exact key of the cache, and otherwise
returns `:id:`. -/
theorem validateNormalizeShortcode_exact (cache : List (String × String)) (s : String) :
    validateNormalizeShortcode cache none = none ∧
    (validateNormalizeShortcode cache (some s) = none ↔
      stripColonRunsS s = "" ∨ mapGet cache (stripColonRunsS s) = none) ∧
    (stripColonRunsS s ≠ "" → (mapGet cache (stripColonRunsS s)).isSome = true →
      validateNormalizeShortcode cache (some s) = some (":" ++ stripColonRunsS s ++ ":")) := by
  refine ⟨rfl, ?_, ?_⟩
  · by_cases h1 : s = ""
    · subst h1
      simp only [validateNormalizeShortcode, if_pos rfl]
      exact ⟨fun _ => Or.inl rfl, fun _ => rfl⟩
    · simp only [validateNormalizeShortcode, if_neg h1]
      by_cases h2 : stripColonRunsS s = ""
      · simp [h2]
      · cases hget : mapGet cache (stripColonRunsS s) with
        | none => simp [h2, hget]
        | some v => simp [h2, hget]
  · intro h2 h3
    have h1 : s ≠ "" := by
      intro he
      subst he
      exact h2 rfl
    simp [validateNormalizeShortcode, h1, h2, h3]

/-- Witness for C5: `blue_circle` is a proper substring of the catalog id
`large_blue_circle` but not itself a catalog id, so it validates to null,
while the exact id `thumbs_up` validates to `:thumbs_up:`. -/
theorem validateNormalizeShortcode_exact_witness :
    validateNormalizeShortcode emojiTestCache (some "blue_circle") = none ∧
    validateNormalizeShortcode emojiTestCache (some "thumbs_up") = some ":thumbs_up:" := by
  constructor
  · exact ((validateNormalizeShortcode_exact emojiTestCache "blue_circle").2.1).mpr
      (Or.inr (by decide))
  · have h := (validateNormalizeShortcode_exact emojiTestCache "thumbs_up").2.2
      (by decide) (by decide)
    exact h.trans (by decide)

/-- C10: `buildEmojiCache` stores `glyph -> id` in the same map as
`id -> glyph`, so `shortcodeToNative` applied to a (nonempty, colon-free)
native glyph whose cache lookup yields an entry id returns that id — not the
glyph and not the input unchanged. -/
theorem glyph_lookup_returns_id (emojis : List EmojiMartEmoji) (glyph gid : String)
    (hne : glyph.data ≠ []) (hcolon : ∀ c ∈ glyph.data, c ≠ ':')
    (hget : mapGet (buildEmojiCache emojis) glyph = some gid) (hgid : gid ≠ "") :
    shortcodeToNative (buildEmojiCache emojis) (some glyph) = gid := by
  have hmk : String.mk glyph.data = glyph := by cases glyph; rfl
  have hstrip : stripColonRunsS glyph = glyph := by
    unfold stripColonRunsS
    rw [stripColonRuns_no_colons hcolon, hmk]
  have hs : glyph ≠ "" := fun h => hne ((string_eq_empty_iff glyph).mp h)
  exact shortcodeToNative_of_hit _ _ hs (by rw [hstrip]; exact hs) gid
    (by rw [hstrip]; exact hget) hgid

/-- Witness for C10: the grinning glyph resolves back to its id through the
bidirectional cache of the test catalog. -/
theorem glyph_lookup_returns_id_witness :
    shortcodeToNative emojiTestCache (some "😀") = "grinning" ∧
    mapGet emojiTestCache "😀" = some "grinning" := by
  constructor
  · exact glyph_lookup_returns_id emojiTestMart "😀" "grinning"
      (by decide) (by decide) (by decide) (by decide)
  · decide

/-! ## Filter engine (`EmojiSelect.tsx`) -/

/-- One flattened catalog entry as produced by `allEmojis`
(EmojiSelect.tsx:190-209): id, display name, first-skin native glyph, and
keywords (defaulted to `[]`). -/
structure EmojiData where
  id : String
  name : String
  native : String
  keywords : List String
deriving DecidableEq

/-- JS `String.prototype.includes`: contiguous-substring containment, at
codepoint granularity. -/
def includesChars (needle : List Char) : List Char → Bool
  | [] => needle.isEmpty
  | c :: t => needle.isPrefixOf (c :: t) || includesChars needle t

/-- Model of `hay.includes(needle)` on strings. -/
def strIncludes (hay needle : String) : Bool :=
  includesChars needle.data hay.data

/-- JS `toLowerCase`, modelled per codepoint (exact on the ASCII range, which
covers catalog ids, names, keywords and typed queries). -/
def lowerS (s : String) : String := String.mk (s.data.map Char.toLower)

/-- JS `trim`: drop leading and trailing whitespace. -/
def trimS (s : String) : String :=
  String.mk (((s.data.dropWhile Char.isWhitespace).reverse.dropWhile
    Char.isWhitespace).reverse)

/-- The filter predicate of `filteredEmojis` (EmojiSelect.tsx:287-311): match
by id, by display name, by any keyword, or by the canonical `:id:` form, all
case-folded. -/
def emojiMatches (e : EmojiData) (query : String) : Bool :=
  strIncludes (lowerS e.id) query ||
  strIncludes (lowerS e.name) query ||
  e.keywords.any (fun k => strIncludes (lowerS k) query) ||
  strIncludes (lowerS (":" ++ e.id ++ ":")) query

/-- Model of `filteredEmojis` (EmojiSelect.tsx:281-312): the full list for a
whitespace-only query, else the catalog-order filter by `emojiMatches`
against the case-folded trimmed query. -/
def filteredEmojis (allEmojis : List EmojiData) (searchQuery : String) : List EmojiData :=
  if trimS searchQuery = "" then allEmojis
  else allEmojis.filter (fun e => emojiMatches e (trimS (lowerS searchQuery)))

/-- The picker-side view of the test catalog (`EmojiSelect.test.tsx` mock),
in JS `Object.values` enumeration order. -/
def emojiTestCatalog : List EmojiData :=
  [ ⟨"100", "Hundred Points", "💯", ["100", "hundred", "points", "score"]⟩,
    ⟨"grinning", "Grinning Face", "😀", ["face", "grin", "smile", "happy"]⟩,
    ⟨"large_blue_circle", "Blue Circle", "🔵", ["blue", "circle"]⟩,
    ⟨"thumbs_up", "Thumbs Up", "👍", ["thumbs", "up", "like", "yes"]⟩ ]

/-- C7: an empty (trimmed) query returns the full entry set in catalog order;
a non-empty query keeps catalog order (the result is a sublist of the
catalog) and includes an entry iff its id, its display name, one of its
keywords, or its canonical `:id:` form (all case-folded) contains the
case-folded trimmed query as a substring. -/
theorem filter_engine_membership (allEmojis : List EmojiData) (q : String) :
    (trimS q = "" → filteredEmojis allEmojis q = allEmojis) ∧
    (trimS q ≠ "" →
      List.Sublist (filteredEmojis allEmojis q) allEmojis ∧
      ∀ e, e ∈ filteredEmojis allEmojis q ↔
        e ∈ allEmojis ∧
          (strIncludes (lowerS e.id) (trimS (lowerS q)) = true ∨
           strIncludes (lowerS e.name) (trimS (lowerS q)) = true ∨
           (∃ k ∈ e.keywords, strIncludes (lowerS k) (trimS (lowerS q)) = true) ∨
           strIncludes (lowerS (":" ++ e.id ++ ":")) (trimS (lowerS q)) = true)) := by
  constructor
  · intro h
    simp [filteredEmojis, h]
  · intro h
    refine ⟨?_, ?_⟩
    · simp only [filteredEmojis, if_neg h]
      exact List.filter_sublist _
    · intro e
      simp only [filteredEmojis, if_neg h, List.mem_filter, emojiMatches,
        Bool.or_eq_true, List.any_eq_true]
      rw [or_assoc, or_assoc]

/-- Witness for C7 at the test catalog: the empty query returns everything,
and the query `thumbs` includes the thumbs-up entry. -/
theorem filter_engine_membership_witness :
    filteredEmojis emojiTestCatalog "" = emojiTestCatalog ∧
    (⟨"thumbs_up", "Thumbs Up", "👍", ["thumbs", "up", "like", "yes"]⟩ : EmojiData) ∈
      filteredEmojis emojiTestCatalog "thumbs" := by
  constructor
  · exact (filter_engine_membership emojiTestCatalog "").1 (by decide)
  · exact (((filter_engine_membership emojiTestCatalog "thumbs").2 (by decide)).2 _).mpr
      ⟨by decide, Or.inl (by decide)⟩

/-! ## Picker state machine (`EmojiSelect.tsx`) -/

/-- The picker state: the open flag, the virtual search buffer (codepoints),
the caret, the selection `{start, end}` (unordered, absent when collapsed),
the selection-anchor ref, the `isSearchActive` flag, and the grid focus index
(`null` or an integer — the source can store `-1`). -/
structure PickerState where
  isOpen : Bool
  query : List Char
  caret : Nat
  sel : Option (Nat × Nat)
  anchor : Option Int
  isSearchActive : Bool
  focusedIndex : Option Int
deriving DecidableEq

/-- The initial state (the `useState` initializers, with the picker open as
for an exposed table cell): empty buffer, caret 0, no selection, search
inactive, no grid focus. -/
def initState : PickerState :=
  ⟨true, [], 0, none, none, false, none⟩

/-- Model of `Math.max(0, Math.min(n, len))`. -/
def clampIdx (n : Int) (len : Nat) : Nat := (min (max 0 n) (len : Int)).toNat

/-- Model of `setSelectionRange` (EmojiSelect.tsx:211-224): clamp both bounds into the
buffer; collapse to absent (clearing the anchor) when they coincide. -/
def setSelectionRange (s : PickerState) (a b : Int) : PickerState :=
  if clampIdx a s.query.length = clampIdx b s.query.length then
    { s with sel := none, anchor := none }
  else
    { s with sel := some (clampIdx a s.query.length, clampIdx b s.query.length) }

/-- Model of `clearSelection` (EmojiSelect.tsx:226-230). -/
def clearSelection (s : PickerState) : PickerState :=
  { s with sel := none, anchor := none }

/-- Model of `setCaretIndexSafe` (EmojiSelect.tsx:232-237). -/
def setCaretIndexSafe (s : PickerState) (n : Int) : PickerState :=
  { s with caret := clampIdx n s.query.length }

/-- Model of `replaceAllOrInsertAtCaret` (EmojiSelect.tsx:239-278): replace the
ordered selection span (when asked and present) or insert at the clamped
caret; the caret lands after the inserted text, the selection is cleared and
the search becomes active. -/
def replaceAllOrInsertAtCaret (s : PickerState) (text : List Char)
    (replaceSelection : Bool) : PickerState :=
  let s1 :=
    match (if replaceSelection then s.sel else none) with
    | some p =>
        { s with
            query := s.query.take (min p.1 p.2) ++ text ++ s.query.drop (max p.1 p.2),
            caret := min p.1 p.2 + text.length }
    | none =>
        { s with
            query := s.query.take (min s.caret s.query.length) ++ text ++
              s.query.drop (min s.caret s.query.length),
            caret := min s.caret s.query.length + text.length }
  { clearSelection s1 with isSearchActive := true }

/-- The `Backspace` branch of `applySearchInputKey` (EmojiSelect.tsx:568-601):
delete the selection span (caret at its start), else one codepoint before the
caret, a no-op at the left edge. -/
def backspaceKey (s : PickerState) : PickerState :=
  let s1 :=
    match s.sel with
    | some p =>
        { s with
            query := s.query.take (min p.1 p.2) ++ s.query.drop (max p.1 p.2),
            caret := min p.1 p.2 }
    | none =>
        if min s.caret s.query.length = 0 then s
        else
          { s with
              query := s.query.take (min s.caret s.query.length - 1) ++
                s.query.drop (min s.caret s.query.length),
              caret := min s.caret s.query.length - 1 }
  { clearSelection s1 with isSearchActive := true }

/-- The `Delete` branch of `applySearchInputKey` (EmojiSelect.tsx:603-635):
delete the selection span (caret at its start), else one codepoint after the
caret, a no-op at the right edge. -/
def deleteKey (s : PickerState) : PickerState :=
  let s1 :=
    match s.sel with
    | some p =>
        { s with
            query := s.query.take (min p.1 p.2) ++ s.query.drop (max p.1 p.2),
            caret := min p.1 p.2 }
    | none =>
        if s.query.length ≤ min s.caret s.query.length then s
        else
          { s with
              query := s.query.take (min s.caret s.query.length) ++
                s.query.drop (min s.caret s.query.length + 1) }
  { clearSelection s1 with isSearchActive := true }

/-- Model of `emojisPerRow` (EmojiSelect.tsx:95). -/
def emojisPerRow : Nat := 7

/-- The four arrow keys. -/
inductive NavKey
  | up
  | down
  | left
  | right
deriving DecidableEq

/-- Model of `setFocusedIndex(newIndex)` followed by `clearSelection()`
(EmojiSelect.tsx:532-533). -/
def setFocus (s : PickerState) (i : Int) : PickerState :=
  { s with sel := none, anchor := none, focusedIndex := some i }

/-- Model of `handleNavigate` (EmojiSelect.tsx:499-550): clamped 2-D movement over the
filtered grid, with the first-row `ArrowUp` exiting into the search buffer
(caret at end, selection cleared). -/
def handleNavigate (count : Nat) (s : PickerState) (k : NavKey) : PickerState :=
  match k with
  | .right => setFocus s (min (s.focusedIndex.getD (-1) + 1) ((count : Int) - 1))
  | .left => setFocus s (max (s.focusedIndex.getD (-1) - 1) 0)
  | .down =>
      if s.focusedIndex.getD (-1) = -1 then setFocus s 0
      else
        setFocus s (min (s.focusedIndex.getD (-1) + (emojisPerRow : Int))
          ((count : Int) - 1))
  | .up =>
      if 0 ≤ s.focusedIndex.getD (-1) ∧ s.focusedIndex.getD (-1) < (emojisPerRow : Int) then
        { s with
            focusedIndex := none,
            isSearchActive := true,
            sel := none,
            anchor := none,
            caret := clampIdx (s.query.length : Int) s.query.length }
      else setFocus s (max (s.focusedIndex.getD (-1) - (emojisPerRow : Int)) 0)

/-- Model of `collapseSelectionTo` (EmojiSelect.tsx:720-724). -/
def collapseSelectionTo (s : PickerState) (idx : Int) : PickerState :=
  setCaretIndexSafe { clearSelection s with anchor := some idx } idx

/-- Model of `extendSelectionTo` with `ensureAnchor` (EmojiSelect.tsx:726-737). -/
def extendSelectionTo (s : PickerState) (idx : Int) : PickerState :=
  setCaretIndexSafe
    (setSelectionRange { s with anchor := some (s.anchor.getD (s.caret : Int)) }
      (s.anchor.getD (s.caret : Int)) idx)
    idx

/-- The plain (no selection, no shift) arrow handling of `handleKeyDown`
(EmojiSelect.tsx:770-788), including the `ArrowDown` handoff into the grid
when the caret is already at the end. -/
def plainArrowKey (s : PickerState) (k : NavKey) : PickerState :=
  let s1 := { s with sel := none, anchor := none }
  if k = NavKey.down ∧ s.query.length ≤ s.caret then
    { s1 with isSearchActive := false, focusedIndex := some 0 }
  else
    match k with
    | .up => setCaretIndexSafe s1 0
    | .down => setCaretIndexSafe s1 (s.query.length : Int)
    | .left => setCaretIndexSafe s1 ((s.caret : Int) - 1)
    | .right => setCaretIndexSafe s1 ((s.caret : Int) + 1)

/-- The text-field arrow handling of `handleKeyDown` while the search is
active (EmojiSelect.tsx:705-789): an active selection collapses under a
non-extending motion (left to its min, right to its max, up/down to the
buffer edges); shift extends from the anchor; otherwise plain movement. -/
def searchArrowKey (s : PickerState) (k : NavKey) (shift : Bool) : PickerState :=
  match s.sel, shift with
  | some p, false =>
      if p.1 ≠ p.2 then
        match k with
        | .left => collapseSelectionTo s ((min p.1 p.2 : Nat) : Int)
        | .right => collapseSelectionTo s ((max p.1 p.2 : Nat) : Int)
        | .up => collapseSelectionTo s 0
        | .down => collapseSelectionTo s ((s.query.length : Nat) : Int)
      else plainArrowKey s k
  | none, false => plainArrowKey s k
  | _, true =>
      match k with
      | .up => extendSelectionTo s 0
      | .down => extendSelectionTo s ((s.query.length : Nat) : Int)
      | .left => extendSelectionTo s ((s.caret : Int) - 1)
      | .right => extendSelectionTo s ((s.caret : Int) + 1)

/-- The `ctrl/cmd-A` branch of the window-level shortcut handler
(EmojiSelect.tsx:352-361): select the whole buffer when nonempty. -/
def selectAllKey (s : PickerState) : PickerState :=
  let s1 :=
    if 0 < s.query.length then
      setCaretIndexSafe
        (setSelectionRange { s with anchor := some 0 } 0 (s.query.length : Int))
        (s.query.length : Int)
    else s
  { s1 with isSearchActive := true }

/-- The `ctrl/cmd-X` branch (EmojiSelect.tsx:378-400): with no selection a
no-op; otherwise the span is removed and the caret lands at its start. -/
def cutKey (s : PickerState) : PickerState :=
  match s.sel with
  | none => s
  | some p =>
      let s1 :=
        { s with
            query := s.query.take (min p.1 p.2) ++ s.query.drop (max p.1 p.2),
            caret := min p.1 p.2 }
      { clearSelection s1 with isSearchActive := true }

/-- The `ctrl/cmd-V` branch (EmojiSelect.tsx:402-411): empty clipboard text
is ignored, otherwise insert-or-replace at the caret. -/
def pasteKey (s : PickerState) (text : List Char) : PickerState :=
  if text.isEmpty then s else replaceAllOrInsertAtCaret s text true

/-- The search-bar `onMouseDown` handler (EmojiSelect.tsx:1023-1042):
shift-click selects from the anchor (defaulted to the caret) to the clicked
index; a plain click moves the caret there and clears the selection.
`clickedIndex` abstracts `getCaretIndexFromClientX`. -/
def searchClick (s : PickerState) (clickedIndex : Int) (shift : Bool) : PickerState :=
  if shift then
    setCaretIndexSafe
      (setSelectionRange
        { s with
            isSearchActive := true,
            anchor := some (s.anchor.getD (s.caret : Int)) }
        (s.anchor.getD (s.caret : Int)) clickedIndex)
      clickedIndex
  else
    setCaretIndexSafe
      { s with
          isSearchActive := true,
          sel := none,
          anchor := some clickedIndex }
      clickedIndex

/-- The effects that run when `searchQuery` changes: the caret/selection
clamp (EmojiSelect.tsx:153-177) followed by the focus reset and selection
clear (EmojiSelect.tsx:314-318). React re-runs them only when the stored
query value actually changed. -/
def queryChangeEffects (oldQuery : List Char) (s : PickerState) : PickerState :=
  if s.query = oldQuery then s
  else
    let s1 := if s.query.length < s.caret then { s with caret := s.query.length } else s
    let s2 :=
      match s1.sel with
      | none => s1
      | some p =>
          if min p.1 s1.query.length = min p.2 s1.query.length then
            { s1 with sel := none, anchor := none }
          else
            { s1 with sel := some (min p.1 s1.query.length, min p.2 s1.query.length) }
    { s2 with focusedIndex := none, sel := none, anchor := none }

/-- Model of `closePicker` (EmojiSelect.tsx:112-117) for the non-embedded picker,
together with the selection clearing of the open/close effect
(EmojiSelect.tsx:137-143). -/
def closePicker (s : PickerState) : PickerState :=
  { s with isOpen := false, query := [], sel := none, anchor := none }

/-- Model of `handleEmojiSelect` (EmojiSelect.tsx:552-558): the value surfaced through
`onSelect` for a chosen entry is the entry's raw `native` glyph. -/
def handleEmojiSelect (e : EmojiData) : String := e.native

/-- One discrete input event. -/
inductive Op
  | char (c : Char)
  | backspace
  | del
  | arrow (k : NavKey) (shift : Bool)
  | enter
  | escape
  | selectAll
  | copy
  | cut
  | paste (text : List Char)
  | clickAt (i : Int) (shift : Bool)
deriving DecidableEq

/-- One input event while the picker is open: `handleKeyDown`
(EmojiSelect.tsx:677-819) plus the window-level clipboard handler
(EmojiSelect.tsx:322-422) and the search-bar mouse-down. Returns the next
state and the value passed to `onSelect`, if any. -/
def stepOpen (filtered : List EmojiData) (s : PickerState) (op : Op) :
    PickerState × Option String :=
  match op with
  | .escape => (closePicker s, none)
  | .enter =>
      match s.focusedIndex with
      | some i =>
          if 0 ≤ i ∧ i < (filtered.length : Int) then
            match filtered.get? i.toNat with
            | some e => (closePicker s, some (handleEmojiSelect e))
            | none => (s, none)
          else (s, none)
      | none => (s, none)
  | .char c => (replaceAllOrInsertAtCaret s [c] true, none)
  | .backspace => (backspaceKey s, none)
  | .del => (deleteKey s, none)
  | .arrow k shift =>
      if s.isSearchActive then (searchArrowKey s k shift, none)
      else (handleNavigate filtered.length { s with isSearchActive := false } k, none)
  | .selectAll => (selectAllKey s, none)
  | .copy => (s, none)
  | .cut => (cutKey s, none)
  | .paste text => (pasteKey s text, none)
  | .clickAt i shift => (searchClick s i shift, none)

/-- One input event of the whole controller: when the picker is closed,
`Escape`/`Enter` and the picker-surface-only interactions do nothing and any
other key only opens the picker (EmojiSelect.tsx:807-816); when open,
`stepOpen` runs, followed by the query-change effects. -/
def ctrlStep (catalog : List EmojiData) (s : PickerState) (op : Op) :
    PickerState × Option String :=
  if s.isOpen then
    let r := stepOpen (filteredEmojis catalog (String.mk s.query)) s op
    (queryChangeEffects s.query r.1, r.2)
  else
    match op with
    | .escape => (s, none)
    | .enter => (s, none)
    | .selectAll => (s, none)
    | .copy => (s, none)
    | .cut => (s, none)
    | .paste _ => (s, none)
    | .clickAt _ _ => (s, none)
    | _ => ({ s with isOpen := true }, none)

/-- Run a sequence of input events from the initial state. -/
def runOps (catalog : List EmojiData) (ops : List Op) : PickerState :=
  ops.foldl (fun s op => (ctrlStep catalog s op).1) initState

/-- The values surfaced through `onSelect` over a run from the initial
state. -/
def runEvents (catalog : List EmojiData) (ops : List Op) : List String :=
  (ops.foldl
    (fun (acc : PickerState × List String) op =>
      ((ctrlStep catalog acc.1 op).1, acc.2 ++ (ctrlStep catalog acc.1 op).2.toList))
    (initState, [])).2

/-! ### Clamp lemmas -/

theorem clampIdx_le (n : Int) (len : Nat) : clampIdx n len ≤ len := by
  unfold clampIdx
  omega

theorem clampIdx_self (len : Nat) : clampIdx (len : Int) len = len := by
  unfold clampIdx
  omega

theorem clampIdx_coe_of_le {n len : Nat} (h : n ≤ len) : clampIdx (n : Int) len = n := by
  unfold clampIdx
  omega

/-! ## Claim theorems about the picker state machine -/

/-- C1 (code-bug evidence): committing a focused entry (ArrowDown then Enter
from the freshly opened picker) surfaces the entry's raw native glyph through
`onSelect` — `"💯"` for the first test-catalog entry (id `"100"`) — not the
canonical `":100:"` shortcode that the spec and the repository's own
`EmojiSelect.test.tsx` expect (`onSelect` is called with `emoji.native` at
EmojiSelect.tsx:554). -/
theorem commit_surfaces_native_glyph :
    runEvents emojiTestCatalog [Op.arrow .down false, Op.enter] = ["💯"] ∧
    handleEmojiSelect
      ⟨"grinning", "Grinning Face", "😀", ["face", "grin", "smile", "happy"]⟩ = "😀" ∧
    ("💯" : String) ≠ ":100:" ∧
    ("😀" : String) ≠ ":grinning:" := by
  refine ⟨by decide, rfl, by decide, by decide⟩

/-- C2 counterexample: after typing `zzz` (which matches nothing in the test
catalog) and pressing ArrowDown, the reachable state has an empty filtered
list yet grid focus at linear index 0 with the search inactive — refuting the
claimed invariant that an empty filtered list forces focus into the text
buffer and that the downward handoff never establishes a grid focus then. -/
theorem grid_focus_empty_filter_cex :
    (filteredEmojis emojiTestCatalog
      (String.mk (runOps emojiTestCatalog
        [Op.char 'z', Op.char 'z', Op.char 'z', Op.arrow .down false]).query)).length = 0 ∧
    (runOps emojiTestCatalog
      [Op.char 'z', Op.char 'z', Op.char 'z', Op.arrow .down false]).focusedIndex = some 0 ∧
    (runOps emojiTestCatalog
      [Op.char 'z', Op.char 'z', Op.char 'z', Op.arrow .down false]).isSearchActive = false := by
  refine ⟨by decide, by decide, by decide⟩

/-- C8: with the search active and an active (distinct-endpoint, in-range)
selection, a non-extending ArrowLeft collapses the caret to the selection
minimum and ArrowRight to the selection maximum, and the selection becomes
absent. -/
theorem nonextending_arrow_collapses (catalog : List EmojiData) (s : PickerState)
    (a b : Nat) (hopen : s.isOpen = true) (hact : s.isSearchActive = true)
    (hsel : s.sel = some (a, b)) (hab : a ≠ b)
    (ha : a ≤ s.query.length) (hb : b ≤ s.query.length) :
    ((ctrlStep catalog s (.arrow .left false)).1.caret = min a b ∧
     (ctrlStep catalog s (.arrow .left false)).1.sel = none) ∧
    ((ctrlStep catalog s (.arrow .right false)).1.caret = max a b ∧
     (ctrlStep catalog s (.arrow .right false)).1.sel = none) := by
  have hmin : min a b ≤ s.query.length := le_trans (min_le_left a b) ha
  have hmax : max a b ≤ s.query.length := max_le ha hb
  constructor
  · simp only [ctrlStep, hopen, if_true, stepOpen, hact, searchArrowKey, hsel,
      if_pos hab, collapseSelectionTo, setCaretIndexSafe, clearSelection,
      queryChangeEffects]
    refine ⟨?_, by simp⟩
    simp only [clampIdx]
    omega
  · simp only [ctrlStep, hopen, if_true, stepOpen, hact, searchArrowKey, hsel,
      if_pos hab, collapseSelectionTo, setCaretIndexSafe, clearSelection,
      queryChangeEffects]
    refine ⟨?_, by simp⟩
    simp only [clampIdx]
    omega

/-- Witness for C8: from buffer `abc` with selection `(1, 3)`, ArrowLeft
lands the caret at 1 and ArrowRight at 3, each clearing the selection. -/
theorem nonextending_arrow_collapses_witness :
    ((ctrlStep emojiTestCatalog ⟨true, ['a', 'b', 'c'], 2, some (1, 3), none, true, none⟩
        (.arrow .left false)).1.caret = min 1 3 ∧
     (ctrlStep emojiTestCatalog ⟨true, ['a', 'b', 'c'], 2, some (1, 3), none, true, none⟩
        (.arrow .left false)).1.sel = none) ∧
    ((ctrlStep emojiTestCatalog ⟨true, ['a', 'b', 'c'], 2, some (1, 3), none, true, none⟩
        (.arrow .right false)).1.caret = max 1 3 ∧
     (ctrlStep emojiTestCatalog ⟨true, ['a', 'b', 'c'], 2, some (1, 3), none, true, none⟩
        (.arrow .right false)).1.sel = none) :=
  nonextending_arrow_collapses emojiTestCatalog
    ⟨true, ['a', 'b', 'c'], 2, some (1, 3), none, true, none⟩ 1 3
    rfl rfl rfl (by decide) (by decide) (by decide)

/-- C9 counterexample: in the reachable state after typing `a` and pressing
ctrl-A, focus is in the buffer, the caret is at the buffer end and there is
no grid focus (but the selection is active); pressing ArrowDown leaves the
grid focus absent (it collapses the selection instead of handing off),
refuting the claim's unconditional down-handoff. -/
theorem down_handoff_selection_cex :
    (runOps emojiTestCatalog [Op.char 'a', Op.selectAll]).caret =
      (runOps emojiTestCatalog [Op.char 'a', Op.selectAll]).query.length ∧
    (runOps emojiTestCatalog [Op.char 'a', Op.selectAll]).isSearchActive = true ∧
    (runOps emojiTestCatalog [Op.char 'a', Op.selectAll]).focusedIndex = none ∧
    (runOps emojiTestCatalog [Op.char 'a', Op.selectAll]).sel = some (0, 1) ∧
    (runOps emojiTestCatalog
      [Op.char 'a', Op.selectAll, Op.arrow .down false]).focusedIndex = none ∧
    (runOps emojiTestCatalog
      [Op.char 'a', Op.selectAll, Op.arrow .down false]).sel = none := by
  refine ⟨by decide, by decide, by decide, by decide, by decide, by decide⟩

/-- C9 (amended): ArrowUp with the grid owning the keys and focus in the
first row exits into the buffer with the caret at the end and the selection
cleared; and ArrowDown from the buffer with the caret at the end, no grid
focus and **no active selection** hands focus to the grid at linear
index 0. -/
theorem buffer_grid_handoff (catalog : List EmojiData) (s t : PickerState) (i : Int)
    (hs1 : s.isOpen = true) (hs2 : s.isSearchActive = false)
    (hs3 : s.focusedIndex = some i) (hs4 : 0 ≤ i) (hs5 : i < (emojisPerRow : Int))
    (ht1 : t.isOpen = true) (ht2 : t.isSearchActive = true) (ht3 : t.sel = none)
    (ht4 : t.focusedIndex = none) (ht5 : t.caret = t.query.length) :
    ((ctrlStep catalog s (.arrow .up false)).1.focusedIndex = none ∧
     (ctrlStep catalog s (.arrow .up false)).1.isSearchActive = true ∧
     (ctrlStep catalog s (.arrow .up false)).1.caret = s.query.length ∧
     (ctrlStep catalog s (.arrow .up false)).1.sel = none) ∧
    ((ctrlStep catalog t (.arrow .down false)).1.focusedIndex = some 0 ∧
     (ctrlStep catalog t (.arrow .down false)).1.isSearchActive = false ∧
     (ctrlStep catalog t (.arrow .down false)).1.query = t.query ∧
     (ctrlStep catalog t (.arrow .down false)).1.caret = t.caret) := by
  constructor
  · simp only [ctrlStep, hs1, if_true, stepOpen, hs2, if_false, handleNavigate,
      queryChangeEffects]
    simp [hs3, hs4, hs5, clampIdx_self]
  · simp only [ctrlStep, ht1, if_true, stepOpen, ht2, if_true, searchArrowKey, ht3,
      plainArrowKey, queryChangeEffects]
    simp [ht5]

/-- Witness for C9 (amended): a first-row grid focus exits upward into the
buffer, and a clean caret-at-end buffer state hands off downward to grid
index 0. -/
theorem buffer_grid_handoff_witness :
    ((ctrlStep emojiTestCatalog ⟨true, ['a', 'b'], 0, none, none, false, some 2⟩
        (.arrow .up false)).1.focusedIndex = none ∧
     (ctrlStep emojiTestCatalog ⟨true, ['a', 'b'], 0, none, none, false, some 2⟩
        (.arrow .up false)).1.isSearchActive = true ∧
     (ctrlStep emojiTestCatalog ⟨true, ['a', 'b'], 0, none, none, false, some 2⟩
        (.arrow .up false)).1.caret = (['a', 'b'] : List Char).length ∧
     (ctrlStep emojiTestCatalog ⟨true, ['a', 'b'], 0, none, none, false, some 2⟩
        (.arrow .up false)).1.sel = none) ∧
    ((ctrlStep emojiTestCatalog ⟨true, ['a', 'b'], 2, none, none, true, none⟩
        (.arrow .down false)).1.focusedIndex = some 0 ∧
     (ctrlStep emojiTestCatalog ⟨true, ['a', 'b'], 2, none, none, true, none⟩
        (.arrow .down false)).1.isSearchActive = false ∧
     (ctrlStep emojiTestCatalog ⟨true, ['a', 'b'], 2, none, none, true, none⟩
        (.arrow .down false)).1.query = ['a', 'b'] ∧
     (ctrlStep emojiTestCatalog ⟨true, ['a', 'b'], 2, none, none, true, none⟩
        (.arrow .down false)).1.caret = 2) :=
  buffer_grid_handoff emojiTestCatalog
    ⟨true, ['a', 'b'], 0, none, none, false, some 2⟩
    ⟨true, ['a', 'b'], 2, none, none, true, none⟩ 2
    rfl rfl rfl (by decide) (by decide) rfl rfl rfl rfl (by decide)

/-! ### The C6 invariant: caret and selection stay within the buffer -/

/-- C6's invariant as a proposition: the caret lies within the buffer, and
any present selection has in-range, distinct endpoints (a collapsed selection
is never represented). -/
def TextInv (s : PickerState) : Prop :=
  s.caret ≤ s.query.length ∧
  ∀ p : Nat × Nat, s.sel = some p →
    p.1 ≤ s.query.length ∧ p.2 ≤ s.query.length ∧ p.1 ≠ p.2

/-- C6's invariant, decidably. -/
def textInvB (s : PickerState) : Bool :=
  decide (s.caret ≤ s.query.length) &&
  (match s.sel with
   | none => true
   | some p =>
       decide (p.1 ≤ s.query.length) && decide (p.2 ≤ s.query.length) && (p.1 != p.2))

theorem textInvB_iff (s : PickerState) : textInvB s = true ↔ TextInv s := by
  unfold textInvB TextInv
  cases hsel : s.sel with
  | none => simp [hsel]
  | some p => simp [hsel, and_assoc]

theorem setSelectionRange_query (s : PickerState) (a b : Int) :
    (setSelectionRange s a b).query = s.query := by
  unfold setSelectionRange
  split <;> rfl

theorem setSelectionRange_sel (s : PickerState) (a b : Int) :
    ∀ p : Nat × Nat, (setSelectionRange s a b).sel = some p →
      p.1 ≤ s.query.length ∧ p.2 ≤ s.query.length ∧ p.1 ≠ p.2 := by
  unfold setSelectionRange
  split
  · intro p hp
    simp at hp
  next hne =>
    intro p hp
    simp only [Option.some.injEq] at hp
    subst hp
    exact ⟨clampIdx_le _ _, clampIdx_le _ _, hne⟩

theorem textInv_setCaretIndexSafe {s : PickerState} (n : Int)
    (hsel : ∀ p : Nat × Nat, s.sel = some p →
      p.1 ≤ s.query.length ∧ p.2 ≤ s.query.length ∧ p.1 ≠ p.2) :
    TextInv (setCaretIndexSafe s n) :=
  ⟨clampIdx_le n s.query.length, hsel⟩

theorem textInv_collapseSelectionTo (s : PickerState) (idx : Int) :
    TextInv (collapseSelectionTo s idx) :=
  textInv_setCaretIndexSafe idx (by simp [clearSelection])

theorem textInv_range_then_caret (s : PickerState) (a b n : Int) :
    TextInv (setCaretIndexSafe (setSelectionRange s a b) n) := by
  apply textInv_setCaretIndexSafe
  intro p hp
  have hb := setSelectionRange_sel s a b p hp
  rwa [setSelectionRange_query]

theorem textInv_extendSelectionTo (s : PickerState) (idx : Int) :
    TextInv (extendSelectionTo s idx) :=
  textInv_range_then_caret _ _ _ _

theorem textInv_plainArrowKey {s : PickerState} (k : NavKey)
    (h1 : s.caret ≤ s.query.length) : TextInv (plainArrowKey s k) := by
  unfold plainArrowKey
  split
  · exact ⟨h1, by simp⟩
  · cases k <;> exact textInv_setCaretIndexSafe _ (by simp)

theorem textInv_searchArrowKey {s : PickerState} (k : NavKey) (shift : Bool)
    (h : TextInv s) : TextInv (searchArrowKey s k shift) := by
  unfold searchArrowKey
  split
  · split
    · cases k <;> exact textInv_collapseSelectionTo _ _
    · exact textInv_plainArrowKey _ h.1
  · exact textInv_plainArrowKey _ h.1
  · cases k <;> exact textInv_extendSelectionTo _ _

theorem textInv_setFocus {s : PickerState} (i : Int)
    (h1 : s.caret ≤ s.query.length) : TextInv (setFocus s i) :=
  ⟨h1, by simp [setFocus]⟩

theorem textInv_handleNavigate {s : PickerState} (count : Nat) (k : NavKey)
    (h : TextInv s) : TextInv (handleNavigate count s k) := by
  cases k with
  | right =>
      simp only [handleNavigate]
      exact textInv_setFocus _ h.1
  | left =>
      simp only [handleNavigate]
      exact textInv_setFocus _ h.1
  | down =>
      simp only [handleNavigate]
      split
      · exact textInv_setFocus _ h.1
      · exact textInv_setFocus _ h.1
  | up =>
      simp only [handleNavigate]
      split
      · exact ⟨clampIdx_le _ _, by simp⟩
      · exact textInv_setFocus _ h.1

theorem textInv_replaceAllOrInsertAtCaret {s : PickerState} (text : List Char)
    (rs : Bool) (h : TextInv s) : TextInv (replaceAllOrInsertAtCaret s text rs) := by
  obtain ⟨h1, h2⟩ := h
  unfold replaceAllOrInsertAtCaret clearSelection
  split
  next p heq =>
    have hp : s.sel = some p := by
      by_cases hr : rs = true
      · simpa [hr] using heq
      · simp [hr] at heq
    obtain ⟨ha, hb, _⟩ := h2 p hp
    refine ⟨?_, by simp⟩
    simp only [List.length_append, List.length_take, List.length_drop]
    omega
  next =>
    refine ⟨?_, by simp⟩
    simp only [List.length_append, List.length_take, List.length_drop]
    omega

theorem textInv_backspaceKey {s : PickerState} (h : TextInv s) :
    TextInv (backspaceKey s) := by
  obtain ⟨h1, h2⟩ := h
  unfold backspaceKey clearSelection
  split
  next p heq =>
    obtain ⟨ha, hb, _⟩ := h2 p heq
    refine ⟨?_, by simp⟩
    simp only [List.length_append, List.length_take, List.length_drop]
    omega
  next =>
    split
    · exact ⟨h1, by simp⟩
    · refine ⟨?_, by simp⟩
      simp only [List.length_append, List.length_take, List.length_drop]
      omega

theorem textInv_deleteKey {s : PickerState} (h : TextInv s) :
    TextInv (deleteKey s) := by
  obtain ⟨h1, h2⟩ := h
  unfold deleteKey clearSelection
  split
  next p heq =>
    obtain ⟨ha, hb, _⟩ := h2 p heq
    refine ⟨?_, by simp⟩
    simp only [List.length_append, List.length_take, List.length_drop]
    omega
  next =>
    split
    next hle => exact ⟨h1, by simp⟩
    next hgt =>
      refine ⟨?_, by simp⟩
      simp only [List.length_append, List.length_take, List.length_drop]
      omega

theorem textInv_selectAllKey {s : PickerState} (h : TextInv s) :
    TextInv (selectAllKey s) := by
  unfold selectAllKey
  split
  · exact textInv_range_then_caret _ _ _ _
  · exact h

theorem textInv_cutKey {s : PickerState} (h : TextInv s) : TextInv (cutKey s) := by
  obtain ⟨h1, h2⟩ := h
  unfold cutKey clearSelection
  split
  · exact ⟨h1, h2⟩
  next p heq =>
    obtain ⟨ha, hb, _⟩ := h2 p heq
    refine ⟨?_, by simp⟩
    simp only [List.length_append, List.length_take, List.length_drop]
    omega

theorem textInv_pasteKey {s : PickerState} (text : List Char) (h : TextInv s) :
    TextInv (pasteKey s text) := by
  unfold pasteKey
  split
  · exact h
  · exact textInv_replaceAllOrInsertAtCaret text true h

theorem textInv_searchClick {s : PickerState} (i : Int) (shift : Bool) :
    TextInv (searchClick s i shift) := by
  unfold searchClick
  split
  · exact textInv_range_then_caret _ _ _ _
  · exact textInv_setCaretIndexSafe _ (by simp)

theorem queryChangeEffects_of_eq {oldQ : List Char} {t : PickerState}
    (h : t.query = oldQ) : queryChangeEffects oldQ t = t := by
  unfold queryChangeEffects
  rw [if_pos h]

theorem queryChangeEffects_sel_of_ne {oldQ : List Char} {t : PickerState}
    (h : ¬t.query = oldQ) : (queryChangeEffects oldQ t).sel = none := by
  unfold queryChangeEffects
  rw [if_neg h]

theorem queryChangeEffects_focus_of_ne {oldQ : List Char} {t : PickerState}
    (h : ¬t.query = oldQ) : (queryChangeEffects oldQ t).focusedIndex = none := by
  unfold queryChangeEffects
  rw [if_neg h]

theorem queryChangeEffects_query {oldQ : List Char} (t : PickerState) :
    (queryChangeEffects oldQ t).query = t.query := by
  unfold queryChangeEffects
  by_cases h : t.query = oldQ
  · rw [if_pos h]
  · rw [if_neg h]
    by_cases hc : t.query.length < t.caret
    · rw [if_pos hc]
      cases hsel : t.sel with
      | none => simp only [hsel]
      | some p =>
          simp only [hsel]
          split <;> rfl
    · rw [if_neg hc]
      cases hsel : t.sel with
      | none => simp only [hsel]
      | some p =>
          simp only [hsel]
          split <;> rfl

theorem queryChangeEffects_caret_of_ne {oldQ : List Char} {t : PickerState}
    (h : ¬t.query = oldQ) :
    (queryChangeEffects oldQ t).caret =
      if t.query.length < t.caret then t.query.length else t.caret := by
  unfold queryChangeEffects
  rw [if_neg h]
  by_cases hc : t.query.length < t.caret
  · rw [if_pos hc, if_pos hc]
    cases hsel : t.sel with
    | none => simp only [hsel]
    | some p =>
        simp only [hsel]
        split <;> rfl
  · rw [if_neg hc, if_neg hc]
    cases hsel : t.sel with
    | none => simp only [hsel]
    | some p =>
        simp only [hsel]
        split <;> rfl

theorem textInv_queryChangeEffects_of_ne {oldQ : List Char} {t : PickerState}
    (h : ¬t.query = oldQ) : TextInv (queryChangeEffects oldQ t) := by
  constructor
  · rw [queryChangeEffects_caret_of_ne h, queryChangeEffects_query t]
    split <;> omega
  · intro p hp
    rw [queryChangeEffects_sel_of_ne h] at hp
    simp at hp

theorem textInv_stepOpen {filtered : List EmojiData} {s : PickerState} {op : Op}
    (h : TextInv s) (hq : (stepOpen filtered s op).1.query = s.query) :
    TextInv (stepOpen filtered s op).1 := by
  cases op with
  | char c => exact textInv_replaceAllOrInsertAtCaret _ _ h
  | backspace => exact textInv_backspaceKey h
  | del => exact textInv_deleteKey h
  | selectAll => exact textInv_selectAllKey h
  | copy => exact h
  | cut => exact textInv_cutKey h
  | paste text => exact textInv_pasteKey _ h
  | clickAt i sh => exact textInv_searchClick _ _
  | arrow k sh =>
      simp only [stepOpen]
      by_cases hact : s.isSearchActive = true
      · rw [if_pos hact]
        exact textInv_searchArrowKey _ _ h
      · rw [if_neg hact]
        exact textInv_handleNavigate _ _ h
  | escape =>
      refine ⟨?_, by simp [stepOpen, closePicker]⟩
      have hq' : s.query = [] := by simpa [stepOpen, closePicker] using hq.symm
      have h1 := h.1
      rw [hq'] at h1
      simpa [stepOpen, closePicker] using h1
  | enter =>
      cases hfi : s.focusedIndex with
      | none =>
          simp only [stepOpen, hfi]
          exact h
      | some i =>
          simp only [stepOpen, hfi] at hq ⊢
          by_cases hin : 0 ≤ i ∧ i < (filtered.length : Int)
          · rw [if_pos hin] at hq ⊢
            cases hg : filtered.get? i.toNat with
            | none =>
                simp only [hg]
                exact h
            | some e =>
                simp only [hg] at hq ⊢
                refine ⟨?_, by simp [closePicker]⟩
                have hq' : s.query = [] := by simpa [closePicker] using hq.symm
                have h1 := h.1
                rw [hq'] at h1
                simpa [closePicker] using h1
          · rw [if_neg hin]
            exact h

theorem textInv_ctrlStep (catalog : List EmojiData) (s : PickerState) (op : Op)
    (h : TextInv s) : TextInv (ctrlStep catalog s op).1 := by
  unfold ctrlStep
  by_cases hopen : s.isOpen = true
  · rw [if_pos hopen]
    show TextInv (queryChangeEffects s.query
      (stepOpen (filteredEmojis catalog (String.mk s.query)) s op).1)
    by_cases hq :
      (stepOpen (filteredEmojis catalog (String.mk s.query)) s op).1.query = s.query
    · rw [queryChangeEffects_of_eq hq]
      exact textInv_stepOpen h hq
    · exact textInv_queryChangeEffects_of_ne hq
  · rw [if_neg hopen]
    cases op <;> exact h

/-- C6: after every sequence of buffer-editing and selection operations
(typing, backspace, delete, paste, cut, select-all, arrow caret motion with
and without shift, clicks, plus the query-change clamp effects), the caret
satisfies `0 ≤ caret ≤ len(buffer)` in codepoints, any present selection has
both endpoints within `[0, len(buffer)]`, and a selection whose bounds
coincide is represented as absent, never as a zero-width range. -/
theorem text_editing_invariant (catalog : List EmojiData) (ops : List Op) :
    textInvB (runOps catalog ops) = true := by
  rw [textInvB_iff]
  unfold runOps
  have hinit : TextInv initState := ⟨Nat.le_refl 0, by simp [initState]⟩
  suffices hall : ∀ (l : List Op) (t : PickerState), TextInv t →
      TextInv (l.foldl (fun s op => (ctrlStep catalog s op).1) t) by
    exact hall ops initState hinit
  intro l
  induction l with
  | nil => exact fun t ht => ht
  | cons op l ih => exact fun t ht => ih _ (textInv_ctrlStep catalog t op ht)

/-! ### The C2 (amended) invariant: grid focus bounds -/

/-- The length of the filtered list for a state's current buffer. -/
def filteredCount (catalog : List EmojiData) (s : PickerState) : Nat :=
  (filteredEmojis catalog (String.mk s.query)).length

/-- C2's amended invariant as a proposition: whenever the filtered list is
nonempty, any present grid focus index lies in `[0, filteredCount)`. -/
def FocusInv (catalog : List EmojiData) (s : PickerState) : Prop :=
  ∀ i : Int, s.focusedIndex = some i → 0 < filteredCount catalog s →
    0 ≤ i ∧ i < (filteredCount catalog s : Int)

/-- C2's amended invariant, decidably. -/
def focusInvB (catalog : List EmojiData) (s : PickerState) : Bool :=
  match s.focusedIndex with
  | none => true
  | some i =>
      (filteredCount catalog s == 0) ||
      (decide (0 ≤ i) && decide (i < (filteredCount catalog s : Int)))

theorem focusInvB_iff (catalog : List EmojiData) (s : PickerState) :
    focusInvB catalog s = true ↔ FocusInv catalog s := by
  unfold focusInvB FocusInv
  cases hfi : s.focusedIndex with
  | none => simp [hfi]
  | some i =>
      simp only [hfi, Bool.or_eq_true, Bool.and_eq_true, decide_eq_true_iff,
        beq_iff_eq, Option.some.injEq]
      constructor
      · rintro (hc | ⟨h1, h2⟩) j hj hpos
        · omega
        · subst hj
          exact ⟨h1, h2⟩
      · intro h
        by_cases hc : filteredCount catalog s = 0
        · exact Or.inl hc
        · exact Or.inr (h i rfl (Nat.pos_of_ne_zero hc))

theorem focusInv_transport {catalog : List EmojiData} {s t : PickerState}
    (h : FocusInv catalog s) (hf : t.focusedIndex = s.focusedIndex)
    (hq : t.query = s.query) : FocusInv catalog t := by
  intro i hi hpos
  have hcnt : filteredCount catalog t = filteredCount catalog s := by
    unfold filteredCount
    rw [hq]
  rw [hcnt] at hpos ⊢
  rw [hf] at hi
  exact h i hi hpos

theorem setSelectionRange_focus (s : PickerState) (a b : Int) :
    (setSelectionRange s a b).focusedIndex = s.focusedIndex := by
  unfold setSelectionRange
  split <;> rfl

theorem replaceAllOrInsertAtCaret_focus (s : PickerState) (text : List Char)
    (rs : Bool) :
    (replaceAllOrInsertAtCaret s text rs).focusedIndex = s.focusedIndex := by
  unfold replaceAllOrInsertAtCaret clearSelection
  split <;> rfl

theorem backspaceKey_focus (s : PickerState) :
    (backspaceKey s).focusedIndex = s.focusedIndex := by
  unfold backspaceKey clearSelection
  split
  · rfl
  · split <;> rfl

theorem deleteKey_focus (s : PickerState) :
    (deleteKey s).focusedIndex = s.focusedIndex := by
  unfold deleteKey clearSelection
  split
  · rfl
  · split <;> rfl

theorem cutKey_focus (s : PickerState) :
    (cutKey s).focusedIndex = s.focusedIndex := by
  unfold cutKey clearSelection
  split <;> rfl

theorem selectAllKey_focus (s : PickerState) :
    (selectAllKey s).focusedIndex = s.focusedIndex := by
  unfold selectAllKey
  split
  · exact setSelectionRange_focus _ _ _
  · rfl

theorem pasteKey_focus (s : PickerState) (text : List Char) :
    (pasteKey s text).focusedIndex = s.focusedIndex := by
  unfold pasteKey
  split
  · rfl
  · exact replaceAllOrInsertAtCaret_focus _ _ _

theorem searchClick_focus (s : PickerState) (i : Int) (shift : Bool) :
    (searchClick s i shift).focusedIndex = s.focusedIndex := by
  unfold searchClick
  split
  · exact setSelectionRange_focus _ _ _
  · rfl

theorem focusInv_setFocus (catalog : List EmojiData) (s : PickerState) (j : Int)
    (hj : 0 < filteredCount catalog s → 0 ≤ j ∧ j < (filteredCount catalog s : Int)) :
    FocusInv catalog (setFocus s j) := by
  intro i hi hpos
  have hji : j = i := by simpa [setFocus] using hi
  subst hji
  exact hj hpos

theorem focusInv_handleNavigate (catalog : List EmojiData) (s : PickerState)
    (k : NavKey) (h : FocusInv catalog s) :
    FocusInv catalog (handleNavigate (filteredCount catalog s) s k) := by
  cases hfo : s.focusedIndex with
  | none =>
      cases k with
      | right =>
          simp only [handleNavigate, hfo, Option.getD_none]
          apply focusInv_setFocus
          intro hpos
          omega
      | left =>
          simp only [handleNavigate, hfo, Option.getD_none]
          apply focusInv_setFocus
          intro hpos
          omega
      | down =>
          simp only [handleNavigate, hfo, Option.getD_none]
          rw [if_pos trivial]
          apply focusInv_setFocus
          intro hpos
          omega
      | up =>
          simp only [handleNavigate, hfo, Option.getD_none, emojisPerRow]
          rw [if_neg (by decide)]
          apply focusInv_setFocus
          intro hpos
          omega
  | some j =>
      cases k with
      | right =>
          simp only [handleNavigate, hfo, Option.getD_some]
          apply focusInv_setFocus
          intro hpos
          have hb := h j hfo hpos
          omega
      | left =>
          simp only [handleNavigate, hfo, Option.getD_some]
          apply focusInv_setFocus
          intro hpos
          have hb := h j hfo hpos
          omega
      | down =>
          simp only [handleNavigate, hfo, Option.getD_some, emojisPerRow]
          by_cases hj : j = (-1 : Int)
          · rw [if_pos hj]
            apply focusInv_setFocus
            intro hpos
            omega
          · rw [if_neg hj]
            apply focusInv_setFocus
            intro hpos
            have hb := h j hfo hpos
            omega
      | up =>
          simp only [handleNavigate, hfo, Option.getD_some, emojisPerRow]
          by_cases hj : (0 : Int) ≤ j ∧ j < ((7 : Nat) : Int)
          · rw [if_pos hj]
            intro i hi _hpos
            simp at hi
          · rw [if_neg hj]
            apply focusInv_setFocus
            intro hpos
            have hb := h j hfo hpos
            omega

theorem focusInv_plainArrowKey (catalog : List EmojiData) {s : PickerState}
    (k : NavKey) (h : FocusInv catalog s) :
    FocusInv catalog (plainArrowKey s k) := by
  unfold plainArrowKey
  split
  · intro i hi hpos
    have h0i : (0 : Int) = i := by simpa using hi
    subst h0i
    refine ⟨le_refl 0, ?_⟩
    omega
  · cases k <;> exact fun i hi hpos => h i hi hpos

theorem focusInv_searchArrowKey (catalog : List EmojiData) {s : PickerState}
    (k : NavKey) (shift : Bool) (h : FocusInv catalog s) :
    FocusInv catalog (searchArrowKey s k shift) := by
  unfold searchArrowKey
  split
  · split
    · cases k <;> exact fun i hi hpos => h i hi hpos
    · exact focusInv_plainArrowKey catalog _ h
  · exact focusInv_plainArrowKey catalog _ h
  · cases k <;>
      exact focusInv_transport h (setSelectionRange_focus _ _ _)
        (setSelectionRange_query _ _ _)

theorem focusInv_stepOpen (catalog : List EmojiData) {s : PickerState} (op : Op)
    (h : FocusInv catalog s)
    (hq : (stepOpen (filteredEmojis catalog (String.mk s.query)) s op).1.query = s.query) :
    FocusInv catalog (stepOpen (filteredEmojis catalog (String.mk s.query)) s op).1 := by
  cases op with
  | char c => exact focusInv_transport h (replaceAllOrInsertAtCaret_focus _ _ _) hq
  | backspace => exact focusInv_transport h (backspaceKey_focus _) hq
  | del => exact focusInv_transport h (deleteKey_focus _) hq
  | selectAll => exact focusInv_transport h (selectAllKey_focus _) hq
  | copy => exact h
  | cut => exact focusInv_transport h (cutKey_focus _) hq
  | paste text => exact focusInv_transport h (pasteKey_focus _ _) hq
  | clickAt i sh => exact focusInv_transport h (searchClick_focus _ _ _) hq
  | escape => exact focusInv_transport h rfl hq
  | arrow k sh =>
      simp only [stepOpen]
      by_cases hact : s.isSearchActive = true
      · rw [if_pos hact]
        exact focusInv_searchArrowKey catalog _ _ h
      · rw [if_neg hact]
        exact focusInv_handleNavigate catalog _ _ h
  | enter =>
      cases hfi : s.focusedIndex with
      | none =>
          simp only [stepOpen, hfi]
          exact h
      | some i =>
          simp only [stepOpen, hfi] at hq ⊢
          by_cases hin :
            0 ≤ i ∧ i < (((filteredEmojis catalog (String.mk s.query)).length : Nat) : Int)
          · rw [if_pos hin] at hq ⊢
            cases hg : (filteredEmojis catalog (String.mk s.query)).get? i.toNat with
            | none =>
                simp only [hg]
                exact h
            | some e =>
                simp only [hg] at hq ⊢
                exact focusInv_transport h rfl hq
          · rw [if_neg hin]
            exact h

theorem focusInv_ctrlStep (catalog : List EmojiData) (s : PickerState) (op : Op)
    (h : FocusInv catalog s) : FocusInv catalog (ctrlStep catalog s op).1 := by
  unfold ctrlStep
  by_cases hopen : s.isOpen = true
  · rw [if_pos hopen]
    show FocusInv catalog (queryChangeEffects s.query
      (stepOpen (filteredEmojis catalog (String.mk s.query)) s op).1)
    by_cases hq :
      (stepOpen (filteredEmojis catalog (String.mk s.query)) s op).1.query = s.query
    · rw [queryChangeEffects_of_eq hq]
      exact focusInv_stepOpen catalog op h hq
    · intro i hi _hpos
      rw [queryChangeEffects_focus_of_ne hq] at hi
      simp at hi
  · rw [if_neg hopen]
    cases op <;> exact h

/-- C2 (amended): in every state reachable by input events from the initial
state, whenever the filtered list is nonempty any established grid focus
index satisfies `0 ≤ linearIndex < filteredCount`. (When the filtered list is
empty this does not force focus back into the buffer: the downward handoff
still establishes grid focus index 0 — see the counterexample theorem.) -/
theorem grid_focus_bound_inv (catalog : List EmojiData) (ops : List Op) :
    focusInvB catalog (runOps catalog ops) = true := by
  rw [focusInvB_iff]
  unfold runOps
  have hinit : FocusInv catalog initState := by
    intro i hi _hpos
    simp [initState] at hi
  suffices hall : ∀ (l : List Op) (t : PickerState), FocusInv catalog t →
      FocusInv catalog (l.foldl (fun s op => (ctrlStep catalog s op).1) t) by
    exact hall ops initState hinit
  intro l
  induction l with
  | nil => exact fun t ht => ht
  | cons op l ih => exact fun t ht => ih _ (focusInv_ctrlStep catalog t op ht)

end EmojiSpec
